import Mathlib

/-!
# configSoftAP: the configuration access point of MiniWebNeopixels

A shallow embedding of `configSoftAP.cpp` / `configSoftAP.h`.

* Memory reachable through `getConfigContent` is a flat map from the byte offset
  (relative to the pointer) to the byte stored there; offsets at or beyond
  `GET_CONFIG_BUF_SIZE` are memory that does not belong to the render buffer.
* Calls to the platform (WiFi, DNS, web server, EEPROM library, heap, restart) are
  recorded in a trace of events.
* The output of the `DEBUG_*` logging statements is not part of the model; an argument
  of theirs that reads the render buffer is.
-/

set_option autoImplicit false

namespace ConfigSoftAP

/-! ## Constants of the source -/

/-- Capacity of the render buffer: the macro GET_CONFIG_BUF_SIZE, `(int32_t)6044`. -/
def GET_CONFIG_BUF_SIZE : Nat := 6044

/-- Number of values of the 32-bit unsigned `size_t`. -/
def SIZE_RANGE : Nat := 2 ^ 32

/-- Address octets of the access point: the macro AP_LOCAL_IP, `192, 168, 4, 1`. -/
def AP_LOCAL_IP : Nat × Nat × Nat × Nat := (192, 168, 4, 1)

/-- Name of the template asset: the macro AP_JS_NAME. -/
def AP_JS_NAME : String := "config.html"

/-- Bytes of the literal `"\t</body>\n</html>\n"` that closes the page (without its terminator). -/
def closingSuffix : List Nat := "\t</body>\n</html>\n".toList.map Char.toNat

/-! ## Memory and C strings -/

/-- Bytes addressed relative to `getConfigContent`. -/
abbrev Mem := Nat → Nat

/-- Assignment `p[i] = v`. -/
def Mem.store (m : Mem) (i v : Nat) : Mem := fun j => if j = i then v else m j

/-- Scan for the first null byte from offset `i`, visiting at most `fuel` bytes. -/
def strlenFrom (m : Mem) : Nat → Nat → Option Nat
  | 0, _ => none
  | fuel + 1, i => if m i = 0 then some i else strlenFrom m fuel (i + 1)

/-- C `strlen(getConfigContent)`: offset of the first null byte; `none` when the
address space holds none (the scan runs off the end: undefined behaviour). -/
def strlen (m : Mem) : Option Nat := strlenFrom m SIZE_RANGE 0

/-- The C string that starts at offset 0. -/
def cstr (m : Mem) : Option (List Nat) := (strlen m).map fun n => (List.range n).map m

/-- Conversion of a signed value to the 32-bit unsigned type. -/
def toU32 (x : Int) : Nat := (x % (2 ^ 32 : Int)).toNat

/-- The C expression `GET_CONFIG_BUF_SIZE - strlen(getConfigContent)` for a string of
length `len`: the `int32_t` operand is converted to the unsigned type of `strlen`,
and the subtraction wraps modulo 2^32. -/
def remainingCapacity (len : Nat) : Nat := toU32 ((GET_CONFIG_BUF_SIZE : Int) - (len : Int))

/-- Third argument of the `strncpy` call in `configSoftAP`:
`(GET_CONFIG_BUF_SIZE-strlen(buf) < 0 ? 0 : GET_CONFIG_BUF_SIZE-strlen(buf))`.
The comparison is made on the unsigned difference. -/
def suffixCopyLength (len : Nat) : Nat :=
  if remainingCapacity len < 0 then 0 else remainingCapacity len

/-! ## Platform interface -/

/-- Body handed to `ap_server.send`. -/
inductive Content where
  /-- A string literal of the source. -/
  | literal (text : String)
  /-- The C string read through `getConfigContent`; `none` when it has no terminator. -/
  | buffer (bytes : Option (List Nat))
  deriving DecidableEq, Repr

/-- A value stored in a JSON document, as seen through ArduinoJson. Arrays and
objects carry their serialized text. -/
inductive JsonVariant where
  | null
  | boolean (b : Bool)
  | number (n : Int)
  | string (s : String)
  | array (raw : String)
  | object (raw : String)
  deriving DecidableEq, Repr

/-- A parsed document: the members of its root object (none for any other root). -/
abbrev JsonDocument := List (String × JsonVariant)

/-- ArduinoJson `doc[key]`: the member, or a null variant when it is absent. -/
def JsonDocument.member (doc : JsonDocument) (key : String) : JsonVariant :=
  match doc.lookup key with
  | some v => v
  | none => JsonVariant.null

/-- ArduinoJson `isNull()`. -/
def JsonVariant.isNull : JsonVariant → Bool
  | JsonVariant.null => true
  | _ => false

/-- ArduinoJson conversion to `const char *`: a pointer to the characters of a string
value (a NUL character among them is kept), and the null pointer (`none`) for every
value that is not a string. -/
def JsonVariant.asCString : JsonVariant → Option String
  | JsonVariant.string s => some s
  | _ => none

/-- The C string behind a `const char *` to the text `s`: the characters before its
first NUL. -/
def cstringOf (s : String) : List Char := s.toList.takeWhile fun c => decide (c ≠ Char.ofNat 0)

/-- The test `strcmp(a, b) == 0`: the two C strings have the same characters. -/
def strcmpIsZero (a b : String) : Bool := decide (cstringOf a = cstringOf b)

/-- Observable actions, in program order. -/
inductive Event where
  /-- Store of `len` bytes at offsets `start .. start + len - 1` of `getConfigContent`. -/
  | write (start len : Nat)
  /-- Call `createHTMLfromEEPROM(getConfigContent + offset, size)`. -/
  | createHTMLfromEEPROM (offset size : Nat)
  /-- Call `saveJsonToEEPROM(jsonDoc)`. -/
  | saveJsonToEEPROM (doc : JsonDocument)
  /-- Call `ap_server.sendHeader(name, value, true)`. -/
  | sendHeader (name value : String)
  /-- Call `ap_server.send(code, content_type, content)`. -/
  | send (code : Nat) (content_type : String) (content : Content)
  | delay (ms : Nat)
  | softAPConfig
  | softAP
  | dnsStart
  | serverBegin
  /-- Call `dnsServer.processNextRequest()`. -/
  | processNextRequest
  | serverStop
  | dnsStop
  | softAPdisconnect
  /-- Call `free(getConfigContent)`. -/
  | free
  /-- Call `ESP.restart()`. -/
  | restart
  deriving DecidableEq, Repr

/-- The LittleFS file system, as far as `configSoftAP` consults it. -/
structure FileSystem where
  /-- Result of `LittleFS.exists(name)`. -/
  fileExists : String → Bool
  /-- Result of `LittleFS.open(name, "r")`: the bytes of the file, `none` when it cannot be opened. -/
  openFile : String → Option (List Nat)

/-! ## Page assembly (`configSoftAP`, template load to final terminator) -/

/-- The loop `while(fd.available()) *pbuf++ = fd.read();` over the bytes still to be
read: final value of `pbuf`, memory, and the stores made. -/
def copyLoop : List Nat → Nat → Mem → Nat × Mem × List Event
  | [], pbuf, m => (pbuf, m, [])
  | b :: rest, pbuf, m =>
    let r := copyLoop rest (pbuf + 1) (m.store pbuf b)
    (r.1, r.2.1, Event.write pbuf 1 :: r.2.2)

/-- Result of the template step. -/
structure Loaded where
  /-- The local `ret`: 0, or -1 after a failure. -/
  ret : Int
  mem : Mem
  events : List Event

/-- Template step of `configSoftAP`: existence check, open, copy loop and terminator. -/
def loadTemplate (fs : FileSystem) (m : Mem) : Loaded :=
  if fs.fileExists AP_JS_NAME = false then ⟨-1, m, []⟩
  else
    match fs.openFile AP_JS_NAME with
    | none => ⟨-1, m, []⟩
    | some bytes =>
      let r := copyLoop bytes 0 m
      ⟨0, r.2.1.store r.1 0, r.2.2 ++ [Event.write r.1 1]⟩

/-- Bytes `bs` stored at consecutive offsets from `off`. -/
def storeBlock (m : Mem) (off : Nat) (bs : List Nat) : Mem :=
  fun j => if off ≤ j ∧ j < off + bs.length then bs.getD (j - off) 0 else m j

/-- C `strncpy(dst, src, n)` for a source string with characters `src`: exactly `n`
bytes are stored, the characters of `src` first and null bytes after them. -/
def strncpy (m : Mem) (dst : Nat) (src : List Nat) (n : Nat) : Mem :=
  fun j => if dst ≤ j ∧ j < dst + n then src.getD (j - dst) 0 else m j

/-- Memory after each statement of the page assembly, and the events of the whole. -/
structure Assembly where
  ret : Int
  afterTemplate : Mem
  afterRender : Mem
  afterSuffix : Mem
  /-- Value of `strlen(getConfigContent)` handed to `DEBUG_INFO` after the `strncpy`. -/
  reported : Nat
  final : Mem
  events : List Event

/-- Page assembly of `configSoftAP`. The renderer `createHTMLfromEEPROM` belongs to
`bt_eepromlib`; it is a parameter: for the size it is passed, the bytes it stores at
consecutive addresses from the pointer it is passed. The value of `ret` is never
read. Between the `strncpy` and the final terminator store, `strlen(getConfigContent)`
is evaluated as an argument of `DEBUG_INFO`. The result is `none` when a `strlen`
finds no terminator. -/
def assemblePage (fs : FileSystem) (createHTMLfromEEPROM : Nat → List Nat) (m0 : Mem) :
    Option Assembly :=
  let t := loadTemplate fs m0
  match strlen t.mem with
  | none => none
  | some len1 =>
    let size := remainingCapacity len1
    let out := createHTMLfromEEPROM size
    let m2 := storeBlock t.mem len1 out
    match strlen m2 with
    | none => none
    | some len2 =>
      let n := suffixCopyLength len2
      let m3 := strncpy m2 len2 closingSuffix n
      match strlen m3 with
      | none => none
      | some used =>
        let m4 := m3.store (GET_CONFIG_BUF_SIZE - 1) 0
        some
          { ret := t.ret
            afterTemplate := t.mem
            afterRender := m2
            afterSuffix := m3
            reported := used
            final := m4
            events := t.events ++
              [Event.createHTMLfromEEPROM len1 size, Event.write len1 out.length]
              ++ [Event.write len2 n] ++ [Event.write (GET_CONFIG_BUF_SIZE - 1) 1] }

/-- Whether an event stores a byte at an offset outside the render buffer. -/
def Event.overflows : Event → Bool
  | Event.write start len => decide (0 < len ∧ GET_CONFIG_BUF_SIZE < start + len)
  | _ => false

/-- Characters of the C string held in a byte list: the bytes before its first null. -/
def cchars (bs : List Nat) : List Nat := bs.takeWhile fun b => decide (b ≠ 0)

/-- Whether the memory holds a null byte inside the render buffer. -/
def terminatedWithin (m : Mem) : Prop := ∃ i, i < GET_CONFIG_BUF_SIZE ∧ m i = 0

instance (m : Mem) : Decidable (terminatedWithin m) := by
  unfold terminatedWithin; infer_instance

/-! ## Request handlers -/

/-- Request methods of the web server (the ones told apart here). -/
inductive HTTPMethod where
  | HTTP_GET
  | HTTP_POST
  | HTTP_PUT
  | HTTP_DELETE
  | HTTP_HEAD
  | HTTP_OPTIONS
  deriving DecidableEq, Repr

/-- A request read by `ap_server.handleClient()`. -/
structure Request where
  method : HTTPMethod
  /-- Request path. -/
  uri : String
  /-- Request body, `ap_server.arg("plain")`. -/
  plain : String
  deriving DecidableEq, Repr

/-- The file-scope variables of `configSoftAP.cpp`. -/
structure Session where
  config_done : Bool
  /-- The pointer `getConfigContent`: `none` is NULL, otherwise the memory it addresses. -/
  getConfigContent : Option Mem

/-- Effect of one handler call. -/
structure Handled where
  session : Session
  events : List Event
  /-- Set when the call runs into undefined behaviour (a null pointer passed to `strcmp`). -/
  faulted : Bool

/-- The string `send` reads through a `char *`: empty for NULL. -/
def bufferContent : Option Mem → Content
  | none => Content.buffer (some [])
  | some m => Content.buffer (cstr m)

/-- Handler `handleRoot`. -/
def handleRoot (st : Session) : Handled :=
  ⟨st, [Event.send 200 "text/html" (bufferContent st.getConfigContent)], false⟩

/-- Handler `handleNotFound`. -/
def handleNotFound (st : Session) : Handled :=
  ⟨st, [Event.sendHeader "Location" "http://192.168.4.1/",
        Event.send 302 "text/plain" (Content.literal "")], false⟩

/-- Handler `handleSubmit`. The parser `deserializeJson` is a parameter: `none` is a
deserialization error. `strcmp(jbuf, s) == 0` compares the two C strings, and is
undefined when `jbuf` is the null pointer. -/
def handleSubmit (deserializeJson : String → Option JsonDocument) (req : Request)
    (st : Session) : Handled :=
  if req.method = HTTPMethod.HTTP_POST then
    match deserializeJson req.plain with
    | none => ⟨st, [], false⟩
    | some jsonDoc =>
      if (jsonDoc.member "action").isNull then ⟨st, [], false⟩
      else
        match (jsonDoc.member "action").asCString with
        | none => ⟨st, [], true⟩
        | some jbuf =>
          if strcmpIsZero jbuf "save" then
            ⟨st, [Event.saveJsonToEEPROM jsonDoc,
                  Event.send 200 "text/html" (Content.literal "Successfully saved")], false⟩
          else if strcmpIsZero jbuf "cancel" then
            ⟨{ st with config_done := true },
              [Event.send 200 "text/html" (Content.literal "Configuration Cancelled")], false⟩
          else
            ⟨{ st with config_done := true },
              [Event.send 404 "text/html" (Content.literal "Invalid value for \"action\"")], false⟩
  else ⟨st, [], false⟩

/-- The three registrations of `configSoftAP`. -/
inductive Route where
  | root
  | submit
  | notFound
  deriving DecidableEq, Repr

/-- Dispatch of the web server over `on("/", handleRoot)`, `onNotFound(handleNotFound)`
and `on("/api/config", HTTP_POST, handleSubmit)`: a path is matched exactly. -/
def route (req : Request) : Route :=
  if req.uri = "/" then Route.root
  else if req.uri = "/api/config" ∧ req.method = HTTPMethod.HTTP_POST then Route.submit
  else Route.notFound

/-- One call of `ap_server.handleClient()`; `pending` is the request waiting, if any. -/
def handleClient (deserializeJson : String → Option JsonDocument) (pending : Option Request)
    (st : Session) : Handled :=
  match pending with
  | none => ⟨st, [], false⟩
  | some req =>
    match route req with
    | Route.root => handleRoot st
    | Route.submit => handleSubmit deserializeJson req st
    | Route.notFound => handleNotFound st

/-! ## Session loop and teardown -/

/-- What one evaluation of the loop guard, and the loop body after it, find. -/
structure Iteration where
  /-- Value of `Serial.available()` at the guard. -/
  serialAvailable : Nat
  /-- Request waiting when `handleClient` runs. -/
  request : Option Request

/-- How a run stands. -/
inductive Status where
  /-- The loop guard failed. -/
  | exited
  /-- The guard held at every evaluation supplied: the session is still polling. -/
  | polling
  /-- Undefined behaviour was reached. -/
  | faulted
  /-- Execution reached `ESP.restart()`. -/
  | restarted
  /-- Control reached the end of `configSoftAP` and went back to the caller. -/
  | returned
  deriving DecidableEq, Repr

/-- State of the loop when it stops, and the events of its iterations. -/
structure LoopResult where
  status : Status
  session : Session
  events : List Event

/-- The loop `while((Serial.available() == 0) && (config_done == false))` with its body
`dnsServer.processNextRequest(); ap_server.handleClient();`. -/
def pollLoop (deserializeJson : String → Option JsonDocument) :
    Session → List Iteration → LoopResult
  | st, [] => ⟨Status.polling, st, []⟩
  | st, it :: rest =>
    if it.serialAvailable = 0 ∧ st.config_done = false then
      let h := handleClient deserializeJson it.request st
      if h.faulted then ⟨Status.faulted, h.session, Event.processNextRequest :: h.events⟩
      else
        let r := pollLoop deserializeJson h.session rest
        ⟨r.status, r.session, Event.processNextRequest :: h.events ++ r.events⟩
    else ⟨Status.exited, st, []⟩

/-- Everything `configSoftAP` reads from outside. -/
structure World where
  /-- Value of the global `config_done` on entry. -/
  config_done : Bool
  /-- Result of `malloc(GET_CONFIG_BUF_SIZE)`: `none` is NULL, otherwise the block with
  the bytes it happens to hold. -/
  malloc : Option Mem
  fs : FileSystem
  createHTMLfromEEPROM : Nat → List Nat
  deserializeJson : String → Option JsonDocument

/-- A run of `configSoftAP`. -/
structure Outcome where
  status : Status
  trace : List Event

/-- Call `ESP.restart()`: the device restarts and the call does not return, so the
rest of the function, `next`, is not run. -/
def ESP_restart (trace : List Event) (_next : List Event → Outcome) : Outcome :=
  ⟨Status.restarted, trace ++ [Event.restart]⟩

/-- Statements of `configSoftAP` after the allocation check: services, page assembly,
polling loop, teardown, restart. With a NULL buffer the first access to it faults. -/
def runSession (w : World) (inputs : List Iteration) (ptr : Option Mem)
    (trace : List Event) : Outcome :=
  let setup := trace ++ [Event.softAPConfig, Event.softAP, Event.dnsStart, Event.serverBegin]
  match ptr with
  | none => ⟨Status.faulted, setup⟩
  | some m0 =>
    match assemblePage w.fs w.createHTMLfromEEPROM m0 with
    | none => ⟨Status.faulted, setup ++ (loadTemplate w.fs m0).events⟩
    | some a =>
      let l := pollLoop w.deserializeJson ⟨false, some a.final⟩ inputs
      match l.status with
      | Status.exited =>
        let teardown := [Event.serverStop, Event.dnsStop, Event.softAPdisconnect] ++
          (if l.session.getConfigContent.isSome then [Event.free] else [])
        ESP_restart (setup ++ a.events ++ l.events ++ teardown)
          (fun t => ⟨Status.returned, t⟩)
      | s => ⟨s, setup ++ a.events ++ l.events⟩

/-- The function `configSoftAP`. -/
def configSoftAP (w : World) (inputs : List Iteration) : Outcome :=
  match w.malloc with
  | none => ESP_restart [Event.delay 2000] (runSession w inputs none)
  | some m0 => runSession w inputs (some m0) []

/-- Text form of an address, `IPAddress::toString()`. -/
def ipToString (ip : Nat × Nat × Nat × Nat) : String :=
  toString ip.1 ++ "." ++ toString ip.2.1 ++ "." ++ toString ip.2.2.1 ++ "." ++ toString ip.2.2.2

/-- A file system that holds the template with the given bytes. -/
def templateFS (bytes : List Nat) : FileSystem :=
  ⟨fun name => name = AP_JS_NAME, fun name => if name = AP_JS_NAME then some bytes else none⟩

/-- A file system without the template. -/
def emptyFS : FileSystem := ⟨fun _ => false, fun _ => none⟩

/-! ## Closed forms of the page assembly -/

/-- Memory after a successful template step that read `bytes`. -/
def templateImage (m0 : Mem) (bytes : List Nat) : Mem :=
  (storeBlock m0 0 bytes).store bytes.length 0

/-- Bytes the renderer stores when it is called after the template `bytes`. -/
def renderedBytes (render : Nat → List Nat) (bytes : List Nat) : List Nat :=
  render (GET_CONFIG_BUF_SIZE - (cchars bytes).length)

/-- Memory after the renderer stored `out` behind the template string. -/
def renderImage (m0 : Mem) (bytes out : List Nat) : Mem :=
  storeBlock (templateImage m0 bytes) (cchars bytes).length out

/-- Length of the string made of the template string and the rendered form. -/
def formEnd (bytes out : List Nat) : Nat := (cchars bytes).length + (cchars out).length

/-- Memory after the `strncpy` of the closing suffix. -/
def suffixImage (m0 : Mem) (bytes out : List Nat) : Mem :=
  strncpy (renderImage m0 bytes out) (formEnd bytes out) closingSuffix
    (GET_CONFIG_BUF_SIZE - formEnd bytes out)

/-- Memory after the final terminator store. -/
def finalImage (m0 : Mem) (bytes out : List Nat) : Mem :=
  (suffixImage m0 bytes out).store (GET_CONFIG_BUF_SIZE - 1) 0

/-- Template string, rendered form and closing suffix, concatenated. -/
def pageText (bytes out : List Nat) : List Nat := cchars bytes ++ cchars out ++ closingSuffix

/-! ## Observations on traces and sample inputs -/

/-- Whether an event is a call of `saveJsonToEEPROM`. -/
def Event.isSave : Event → Bool
  | Event.saveJsonToEEPROM _ => true
  | _ => false

/-- Whether an event is a response sent to the client. -/
def Event.isResponse : Event → Bool
  | Event.send _ _ _ => true
  | _ => false

/-- Whether an event reads, writes or releases the render buffer. -/
def Event.usesBuffer : Event → Bool
  | Event.write _ _ => true
  | Event.createHTMLfromEEPROM _ _ => true
  | Event.send _ _ (Content.buffer _) => true
  | Event.free => true
  | _ => false

/-- Events a handler call or a loop iteration can produce. -/
def Event.duringLoop : Event → Bool
  | Event.processNextRequest => true
  | Event.saveJsonToEEPROM _ => true
  | Event.sendHeader _ _ => true
  | Event.send _ _ _ => true
  | _ => false

/-- Events the page assembly can produce. -/
def Event.duringAssembly : Event → Bool
  | Event.write _ _ => true
  | Event.createHTMLfromEEPROM _ _ => true
  | _ => false

/-- A renderer that stores the text `form`, cut to fit the size it is passed, and a
terminator; it stores nothing when the size is 0. -/
def truncatingRenderer (form : List Nat) (size : Nat) : List Nat :=
  if size = 0 then [] else form.take (size - 1) ++ [0]

/-- A parser for the bodies used as sample inputs; every other body is a
deserialization error. -/
def sampleDeserializeJson (body : String) : Option JsonDocument :=
  if body = "\x7b\"action\":\"save\",\"ssid\":\"home\"\x7d" then
    some [("action", JsonVariant.string "save"), ("ssid", JsonVariant.string "home")]
  else if body = "\x7b\"action\":\"cancel\"\x7d" then some [("action", JsonVariant.string "cancel")]
  else if body = "\x7b\"action\":\"launch\"\x7d" then some [("action", JsonVariant.string "launch")]
  else if body = "\x7b\"action\":5\x7d" then some [("action", JsonVariant.number 5)]
  else if body = "\x7b\"ssid\":\"home\"\x7d" then some [("ssid", JsonVariant.string "home")]
  else none

/-- A POST request to the submit route. -/
def postConfig (body : String) : Request := ⟨HTTPMethod.HTTP_POST, "/api/config", body⟩

/-- A GET request. -/
def getPath (uri : String) : Request := ⟨HTTPMethod.HTTP_GET, uri, ""⟩

/-- A world with a two-byte template, a one-character form and a zeroed heap block. -/
def sampleWorld : World :=
  ⟨true, some (fun _ => 0), templateFS [65, 66], truncatingRenderer [70], sampleDeserializeJson⟩

end ConfigSoftAP

/-! # Properties -/

namespace ConfigSoftAP

/-! ## C strings in memory -/

theorem strlenFrom_first (m : Mem) (fuel : Nat) : ∀ i L : Nat, i ≤ L → L < i + fuel → m L = 0 →
    (∀ j, i ≤ j → j < L → m j ≠ 0) → strlenFrom m fuel i = some L := by
  induction fuel with
  | zero => intro i L h1 h2; omega
  | succ f ih =>
    intro i L h1 h2 h0 hnz
    unfold strlenFrom
    by_cases hi : m i = 0
    · have : i = L := by
        by_contra hne
        exact hnz i (le_refl i) (by omega) hi
      subst this
      simp [hi]
    · have hlt : i < L := by
        rcases Nat.lt_or_ge i L with h | h
        · exact h
        · have : i = L := by omega
          rw [this] at hi; exact absurd h0 hi
      simp only [hi, if_false]
      exact ih (i + 1) L (by omega) (by omega) h0 (fun j hj hjL => hnz j (by omega) hjL)

theorem strlen_first (m : Mem) (L : Nat) (hL : L < SIZE_RANGE) (h0 : m L = 0)
    (hnz : ∀ j, j < L → m j ≠ 0) : strlen m = some L :=
  strlenFrom_first m SIZE_RANGE 0 L (Nat.zero_le L) (by omega) h0 (fun j _ hj => hnz j hj)

theorem strlenFrom_some (m : Mem) (fuel : Nat) : ∀ i L : Nat, strlenFrom m fuel i = some L →
    i ≤ L ∧ m L = 0 ∧ ∀ j, i ≤ j → j < L → m j ≠ 0 := by
  induction fuel with
  | zero => intro i L h; simp [strlenFrom] at h
  | succ f ih =>
    intro i L h
    unfold strlenFrom at h
    by_cases hi : m i = 0
    · simp only [hi, if_true, Option.some.injEq] at h
      subst h
      exact ⟨le_refl _, hi, fun j h1 h2 => by omega⟩
    · simp only [hi, if_false] at h
      obtain ⟨h1, h2, h3⟩ := ih (i + 1) L h
      refine ⟨by omega, h2, fun j hj hjL => ?_⟩
      by_cases hji : j = i
      · rw [hji]; exact hi
      · exact h3 j (by omega) hjL

theorem strlen_some (m : Mem) (L : Nat) (h : strlen m = some L) :
    m L = 0 ∧ ∀ j, j < L → m j ≠ 0 := by
  obtain ⟨_, h2, h3⟩ := strlenFrom_some m SIZE_RANGE 0 L h
  exact ⟨h2, fun j hj => h3 j (Nat.zero_le j) hj⟩

theorem cstr_of_strlen (m : Mem) (L : Nat) (h : strlen m = some L) :
    cstr m = some ((List.range L).map m) := by
  simp [cstr, h]

/-! ## Byte lists -/

theorem cchars_nil : cchars [] = [] := rfl

theorem cchars_cons_zero (bs : List Nat) : cchars (0 :: bs) = [] := by
  simp [cchars, List.takeWhile]

theorem cchars_cons_ne (b : Nat) (bs : List Nat) (hb : b ≠ 0) :
    cchars (b :: bs) = b :: cchars bs := by
  simp [cchars, List.takeWhile, hb]

theorem cchars_length_le (bs : List Nat) : (cchars bs).length ≤ bs.length := by
  induction bs with
  | nil => simp [cchars_nil]
  | cons b bs ih =>
    by_cases hb : b = 0
    · subst hb; simp [cchars_cons_zero]
    · rw [cchars_cons_ne b bs hb]; simp only [List.length_cons]; omega

theorem cchars_length_lt (bs : List Nat) (h : 0 ∈ bs) : (cchars bs).length < bs.length := by
  induction bs with
  | nil => simp at h
  | cons b bs ih =>
    by_cases hb : b = 0
    · subst hb; simp [cchars_cons_zero]
    · have hin : 0 ∈ bs := by
        rcases List.mem_cons.mp h with h | h
        · exact absurd h.symm hb
        · exact h
      have := ih hin
      rw [cchars_cons_ne b bs hb]; simp only [List.length_cons]; omega

theorem cchars_getD (bs : List Nat) : ∀ k, k < (cchars bs).length →
    (cchars bs).getD k 0 = bs.getD k 0 ∧ bs.getD k 0 ≠ 0 := by
  induction bs with
  | nil => intro k hk; simp [cchars_nil] at hk
  | cons b bs ih =>
    intro k hk
    by_cases hb : b = 0
    · subst hb; simp [cchars_cons_zero] at hk
    · rw [cchars_cons_ne b bs hb] at hk ⊢
      cases k with
      | zero => simp [hb]
      | succ k =>
        simp only [List.length_cons] at hk
        simpa using ih k (by omega)

theorem cchars_end (bs : List Nat) : bs.getD (cchars bs).length 0 = 0 := by
  induction bs with
  | nil => simp [cchars_nil]
  | cons b bs ih =>
    by_cases hb : b = 0
    · subst hb; simp [cchars_cons_zero]
    · rw [cchars_cons_ne b bs hb]; simpa using ih

theorem cchars_of_nonzero (bs : List Nat) (h : ∀ b ∈ bs, b ≠ 0) : cchars bs = bs := by
  unfold cchars
  rw [List.takeWhile_eq_self_iff]
  intro b hb
  simpa using h b hb

theorem cchars_nonzero (bs : List Nat) : ∀ b ∈ cchars bs, b ≠ 0 := by
  intro b hb
  have := List.mem_takeWhile_imp hb
  simpa using this

theorem closingSuffix_length : closingSuffix.length = 17 := by decide

theorem closingSuffix_nonzero : ∀ b ∈ closingSuffix, b ≠ 0 := by decide

/-! ## Page assembly -/

theorem remainingCapacity_of_le (len : Nat) (h : len ≤ GET_CONFIG_BUF_SIZE) :
    remainingCapacity len = GET_CONFIG_BUF_SIZE - len := by
  unfold remainingCapacity toU32 GET_CONFIG_BUF_SIZE at *
  omega

theorem suffixCopyLength_eq (len : Nat) : suffixCopyLength len = remainingCapacity len := by
  simp [suffixCopyLength]

theorem storeBlock_cons (m : Mem) (p b : Nat) (bs : List Nat) :
    storeBlock (m.store p b) (p + 1) bs = storeBlock m p (b :: bs) := by
  funext j
  simp only [storeBlock, Mem.store, List.length_cons]
  by_cases h1 : j = p
  · subst h1
    simp
  · by_cases h2 : p + 1 ≤ j ∧ j < p + 1 + bs.length
    · have h3 : p ≤ j ∧ j < p + (bs.length + 1) := by omega
      have h4 : j - p = (j - (p + 1)) + 1 := by omega
      rw [if_pos h2, if_pos h3, h4, List.getD_cons_succ]
    · have h3 : ¬ (p ≤ j ∧ j < p + (bs.length + 1)) := by omega
      rw [if_neg h2, if_neg h3, if_neg h1]

theorem copyLoop_spec (bs : List Nat) : ∀ (p : Nat) (m : Mem),
    (copyLoop bs p m).1 = p + bs.length ∧ (copyLoop bs p m).2.1 = storeBlock m p bs ∧
    ∀ e ∈ (copyLoop bs p m).2.2, ∃ q, e = Event.write q 1 ∧ p ≤ q ∧ q < p + bs.length := by
  induction bs with
  | nil =>
    intro p m
    refine ⟨rfl, ?_, ?_⟩
    · funext j
      have : ¬ (p ≤ j ∧ j < p) := by omega
      simp [copyLoop, storeBlock, this]
    · intro e he; simp [copyLoop] at he
  | cons b bs ih =>
    intro p m
    obtain ⟨h1, h2, h3⟩ := ih (p + 1) (m.store p b)
    refine ⟨?_, ?_, ?_⟩
    · simp only [copyLoop, h1, List.length_cons]; omega
    · simp only [copyLoop, h2]; exact storeBlock_cons m p b bs
    · intro e he
      simp only [copyLoop, List.mem_cons] at he
      rcases he with he | he
      · exact ⟨p, he, le_refl p, by simp⟩
      · obtain ⟨q, hq, hq1, hq2⟩ := h3 e he
        exact ⟨q, hq, by omega, by simp only [List.length_cons]; omega⟩

theorem loadTemplate_present (fs : FileSystem) (m0 : Mem) (bytes : List Nat)
    (hex : fs.fileExists AP_JS_NAME = true) (hop : fs.openFile AP_JS_NAME = some bytes) :
    (loadTemplate fs m0).mem = templateImage m0 bytes ∧
    Event.write bytes.length 1 ∈ (loadTemplate fs m0).events ∧
    ∀ e ∈ (loadTemplate fs m0).events, ∃ q, e = Event.write q 1 ∧ q ≤ bytes.length := by
  obtain ⟨h1, h2, h3⟩ := copyLoop_spec bytes 0 m0
  have hl : loadTemplate fs m0 = ⟨0, (copyLoop bytes 0 m0).2.1.store (copyLoop bytes 0 m0).1 0,
      (copyLoop bytes 0 m0).2.2 ++ [Event.write (copyLoop bytes 0 m0).1 1]⟩ := by
    simp only [loadTemplate, hex, hop, Bool.true_eq_false, if_false]
  rw [hl]
  refine ⟨?_, ?_, ?_⟩
  · simp only [h1, h2, templateImage, Nat.zero_add]
  · simp only [h1, Nat.zero_add, List.mem_append, List.mem_singleton, or_true]
  · intro e he
    rcases List.mem_append.mp he with he | he
    · obtain ⟨q, hq, _, hq2⟩ := h3 e he
      exact ⟨q, hq, by omega⟩
    · simp only [List.mem_singleton] at he
      exact ⟨(copyLoop bytes 0 m0).1, he, by rw [h1]; omega⟩

theorem loadTemplate_absent (fs : FileSystem) (m0 : Mem)
    (h : fs.fileExists AP_JS_NAME = false ∨ fs.openFile AP_JS_NAME = none) :
    (loadTemplate fs m0).mem = m0 ∧ (loadTemplate fs m0).events = [] ∧
    (loadTemplate fs m0).ret = -1 := by
  unfold loadTemplate
  by_cases hex : fs.fileExists AP_JS_NAME = false
  · simp [hex]
  · rcases h with h | h
    · exact absurd h hex
    · simp [hex, h]

theorem templateImage_read (m0 : Mem) (bytes : List Nat) (j : Nat) (hj : j ≤ bytes.length) :
    templateImage m0 bytes j = bytes.getD j 0 := by
  simp only [templateImage, Mem.store, storeBlock]
  by_cases h : j = bytes.length
  · subst h; simp
  · have : 0 ≤ j ∧ j < 0 + bytes.length := by omega
    rw [if_neg h, if_pos this]; simp

theorem strlen_templateImage (m0 : Mem) (bytes : List Nat) (hT : bytes.length < SIZE_RANGE) :
    strlen (templateImage m0 bytes) = some (cchars bytes).length := by
  have hle := cchars_length_le bytes
  apply strlen_first
  · omega
  · rw [templateImage_read m0 bytes _ hle]; exact cchars_end bytes
  · intro j hj
    rw [templateImage_read m0 bytes j (by omega)]
    exact (cchars_getD bytes j hj).2

theorem strlen_rendered (m1 : Mem) (len1 : Nat) (out : List Nat)
    (h1 : ∀ j, j < len1 → m1 j ≠ 0) (hnul : 0 ∈ out) (hfit : len1 + out.length ≤ SIZE_RANGE) :
    strlen (storeBlock m1 len1 out) = some (len1 + (cchars out).length) := by
  have hlt := cchars_length_lt out hnul
  apply strlen_first
  · omega
  · have : len1 ≤ len1 + (cchars out).length ∧ len1 + (cchars out).length < len1 + out.length := by
      omega
    simp only [storeBlock, if_pos this, Nat.add_sub_cancel_left]
    exact cchars_end out
  · intro j hj
    simp only [storeBlock]
    by_cases hlo : j < len1
    · have : ¬ (len1 ≤ j ∧ j < len1 + out.length) := by omega
      rw [if_neg this]; exact h1 j hlo
    · have : len1 ≤ j ∧ j < len1 + out.length := by omega
      rw [if_pos this]
      exact (cchars_getD out (j - len1) (by omega)).2

/-- The page assembly in closed form: the template is present and can be opened, the
renderer leaves a null byte, the string it ends does not pass the capacity, and the
`strlen` made for `DEBUG_INFO` finds a terminator. -/
theorem assemblePage_closed (fs : FileSystem) (render : Nat → List Nat) (m0 : Mem)
    (bytes : List Nat) (used : Nat) (hex : fs.fileExists AP_JS_NAME = true)
    (hop : fs.openFile AP_JS_NAME = some bytes) (hT : bytes.length < SIZE_RANGE)
    (hnul : 0 ∈ renderedBytes render bytes)
    (hfit : (cchars bytes).length + (renderedBytes render bytes).length ≤ SIZE_RANGE)
    (hcap : formEnd bytes (renderedBytes render bytes) ≤ GET_CONFIG_BUF_SIZE)
    (hrep : strlen (suffixImage m0 bytes (renderedBytes render bytes)) = some used) :
    assemblePage fs render m0 = some
      { ret := (loadTemplate fs m0).ret
        afterTemplate := templateImage m0 bytes
        afterRender := renderImage m0 bytes (renderedBytes render bytes)
        afterSuffix := suffixImage m0 bytes (renderedBytes render bytes)
        reported := used
        final := finalImage m0 bytes (renderedBytes render bytes)
        events := (loadTemplate fs m0).events ++
          [Event.createHTMLfromEEPROM (cchars bytes).length
              (GET_CONFIG_BUF_SIZE - (cchars bytes).length),
            Event.write (cchars bytes).length (renderedBytes render bytes).length,
            Event.write (formEnd bytes (renderedBytes render bytes))
              (GET_CONFIG_BUF_SIZE - formEnd bytes (renderedBytes render bytes)),
            Event.write (GET_CONFIG_BUF_SIZE - 1) 1] } := by
  have hmem := (loadTemplate_present fs m0 bytes hex hop).1
  have hs1 := strlen_templateImage m0 bytes hT
  have hr1 : remainingCapacity (cchars bytes).length
      = GET_CONFIG_BUF_SIZE - (cchars bytes).length :=
    remainingCapacity_of_le _ (by unfold formEnd at hcap; omega)
  have hs2 := strlen_rendered (templateImage m0 bytes) (cchars bytes).length
    (renderedBytes render bytes) (strlen_some _ _ hs1).2 hnul hfit
  have hr2 : remainingCapacity (formEnd bytes (renderedBytes render bytes))
      = GET_CONFIG_BUF_SIZE - formEnd bytes (renderedBytes render bytes) :=
    remainingCapacity_of_le _ hcap
  unfold suffixImage renderImage at hrep
  unfold renderedBytes at hs2 hr2 hcap hfit hnul hrep
  unfold formEnd at hr2 hrep
  simp only [assemblePage, hmem, hs1, hr1, hs2, suffixCopyLength_eq, hr2, hrep,
    List.append_assoc, List.cons_append, List.nil_append, finalImage, suffixImage, renderImage,
    renderedBytes, formEnd]

/-- The page assembly stops at the `strlen` made for `DEBUG_INFO` when the buffer and
the memory after it hold no null byte at that point. -/
theorem assemblePage_unterminated (fs : FileSystem) (render : Nat → List Nat) (m0 : Mem)
    (bytes : List Nat) (hex : fs.fileExists AP_JS_NAME = true)
    (hop : fs.openFile AP_JS_NAME = some bytes) (hT : bytes.length < SIZE_RANGE)
    (hnul : 0 ∈ renderedBytes render bytes)
    (hfit : (cchars bytes).length + (renderedBytes render bytes).length ≤ SIZE_RANGE)
    (hcap : formEnd bytes (renderedBytes render bytes) ≤ GET_CONFIG_BUF_SIZE)
    (hrep : strlen (suffixImage m0 bytes (renderedBytes render bytes)) = none) :
    assemblePage fs render m0 = none := by
  have hmem := (loadTemplate_present fs m0 bytes hex hop).1
  have hs1 := strlen_templateImage m0 bytes hT
  have hr1 : remainingCapacity (cchars bytes).length
      = GET_CONFIG_BUF_SIZE - (cchars bytes).length :=
    remainingCapacity_of_le _ (by unfold formEnd at hcap; omega)
  have hs2 := strlen_rendered (templateImage m0 bytes) (cchars bytes).length
    (renderedBytes render bytes) (strlen_some _ _ hs1).2 hnul hfit
  have hr2 : remainingCapacity (formEnd bytes (renderedBytes render bytes))
      = GET_CONFIG_BUF_SIZE - formEnd bytes (renderedBytes render bytes) :=
    remainingCapacity_of_le _ hcap
  unfold suffixImage renderImage at hrep
  unfold renderedBytes at hs2 hr2 hcap hfit hnul hrep
  unfold formEnd at hr2 hrep
  simp only [assemblePage, hmem, hs1, hr1, hs2, suffixCopyLength_eq, hr2, hrep]

theorem suffixImage_read (m0 : Mem) (bytes out : List Nat) (hnul : 0 ∈ out)
    (hcap : formEnd bytes out ≤ GET_CONFIG_BUF_SIZE) (j : Nat) (hj : j < GET_CONFIG_BUF_SIZE) :
    suffixImage m0 bytes out j = (pageText bytes out).getD j 0 := by
  have hL1 := cchars_length_le bytes
  have hS := cchars_length_lt out hnul
  have hlen : (cchars bytes ++ cchars out).length = formEnd bytes out := by
    simp [formEnd]
  simp only [suffixImage, strncpy, pageText]
  by_cases h2 : formEnd bytes out ≤ j
  · have hc : formEnd bytes out ≤ j ∧
        j < formEnd bytes out + (GET_CONFIG_BUF_SIZE - formEnd bytes out) := by omega
    rw [if_pos hc, List.getD_append_right _ _ _ _ (by omega), hlen]
  · have hc : ¬ (formEnd bytes out ≤ j ∧
        j < formEnd bytes out + (GET_CONFIG_BUF_SIZE - formEnd bytes out)) := by omega
    rw [if_neg hc, List.getD_append _ _ _ _ (by omega)]
    unfold formEnd at h2
    simp only [renderImage, storeBlock]
    by_cases h1 : (cchars bytes).length ≤ j
    · have hb : (cchars bytes).length ≤ j ∧ j < (cchars bytes).length + out.length := by omega
      rw [if_pos hb, List.getD_append_right _ _ _ _ h1]
      exact (cchars_getD out _ (by omega)).1.symm
    · have hb : ¬ ((cchars bytes).length ≤ j ∧ j < (cchars bytes).length + out.length) := by
        omega
      rw [if_neg hb, List.getD_append _ _ _ _ (by omega), templateImage_read m0 bytes j (by omega)]
      exact (cchars_getD bytes _ (by omega)).1.symm

theorem finalImage_read (m0 : Mem) (bytes out : List Nat) (hnul : 0 ∈ out)
    (hcap : formEnd bytes out ≤ GET_CONFIG_BUF_SIZE) (j : Nat) (hj : j < GET_CONFIG_BUF_SIZE - 1) :
    finalImage m0 bytes out j = (pageText bytes out).getD j 0 := by
  have hne : j ≠ GET_CONFIG_BUF_SIZE - 1 := by omega
  simp only [finalImage, Mem.store, if_neg hne]
  exact suffixImage_read m0 bytes out hnul hcap j (by omega)

theorem pageText_nonzero (bytes out : List Nat) : ∀ b ∈ pageText bytes out, b ≠ 0 := by
  intro b hb
  simp only [pageText, List.mem_append] at hb
  rcases hb with (hb | hb) | hb
  · exact cchars_nonzero bytes b hb
  · exact cchars_nonzero out b hb
  · exact closingSuffix_nonzero b hb

theorem pageText_length (bytes out : List Nat) :
    (pageText bytes out).length = formEnd bytes out + 17 := by
  simp only [pageText, formEnd, List.length_append, closingSuffix_length]

theorem strlen_finalImage (m0 : Mem) (bytes out : List Nat) (hnul : 0 ∈ out)
    (hcap : formEnd bytes out ≤ GET_CONFIG_BUF_SIZE) :
    strlen (finalImage m0 bytes out)
      = some (min (GET_CONFIG_BUF_SIZE - 1) (pageText bytes out).length) := by
  have hcapv : GET_CONFIG_BUF_SIZE = 6044 := rfl
  apply strlen_first
  · unfold SIZE_RANGE; omega
  · by_cases h : GET_CONFIG_BUF_SIZE - 1 ≤ (pageText bytes out).length
    · rw [Nat.min_eq_left h]; simp [finalImage, Mem.store]
    · rw [Nat.min_eq_right (by omega), finalImage_read m0 bytes out hnul hcap _ (by omega)]
      exact List.getD_eq_default _ _ (le_refl _)
  · intro j hj
    rw [finalImage_read m0 bytes out hnul hcap j (by omega),
      List.getD_eq_getElem _ _ (by omega)]
    exact pageText_nonzero bytes out _ (List.getElem_mem _)

theorem cstr_finalImage (m0 : Mem) (bytes out : List Nat) (hnul : 0 ∈ out)
    (hcap : formEnd bytes out ≤ GET_CONFIG_BUF_SIZE) :
    cstr (finalImage m0 bytes out) = some ((pageText bytes out).take (GET_CONFIG_BUF_SIZE - 1)) := by
  rw [cstr_of_strlen _ _ (strlen_finalImage m0 bytes out hnul hcap)]
  congr 1
  apply List.ext_getElem
  · simp [List.length_take]
  · intro i h1 h2
    simp only [List.length_map, List.length_range] at h1
    simp only [List.getElem_map, List.getElem_range, List.getElem_take]
    rw [finalImage_read m0 bytes out hnul hcap i (by omega), List.getD_eq_getElem _ _ (by omega)]

theorem strlen_suffixImage_fit (m0 : Mem) (bytes out : List Nat) (hnul : 0 ∈ out)
    (hfit : formEnd bytes out + closingSuffix.length < GET_CONFIG_BUF_SIZE) :
    strlen (suffixImage m0 bytes out) = some (formEnd bytes out + closingSuffix.length) := by
  have hcapv : GET_CONFIG_BUF_SIZE = 6044 := rfl
  have hl := pageText_length bytes out
  rw [closingSuffix_length] at hfit ⊢
  apply strlen_first
  · unfold SIZE_RANGE; omega
  · rw [suffixImage_read m0 bytes out hnul (by omega) _ hfit]
    exact List.getD_eq_default _ _ (by omega)
  · intro j hj
    rw [suffixImage_read m0 bytes out hnul (by omega) j (by omega),
      List.getD_eq_getElem _ _ (by omega)]
    exact pageText_nonzero bytes out _ (List.getElem_mem _)

theorem suffixImage_beyond (m0 : Mem) (bytes out : List Nat) (j : Nat)
    (hj : GET_CONFIG_BUF_SIZE ≤ j) (hT : bytes.length < GET_CONFIG_BUF_SIZE)
    (hout : (cchars bytes).length + out.length ≤ GET_CONFIG_BUF_SIZE)
    (hcap : formEnd bytes out ≤ GET_CONFIG_BUF_SIZE) :
    suffixImage m0 bytes out j = m0 j := by
  have h1 : ¬ (formEnd bytes out ≤ j ∧
      j < formEnd bytes out + (GET_CONFIG_BUF_SIZE - formEnd bytes out)) := by omega
  have h2 : ¬ ((cchars bytes).length ≤ j ∧ j < (cchars bytes).length + out.length) := by omega
  have h3 : j ≠ bytes.length := by omega
  have h4 : ¬ (0 ≤ j ∧ j < 0 + bytes.length) := by omega
  simp only [suffixImage, strncpy, if_neg h1, renderImage, storeBlock, if_neg h2, templateImage,
    Mem.store, if_neg h3, if_neg h4]

theorem suffixImage_nonzero_within (m0 : Mem) (bytes out : List Nat) (hnul : 0 ∈ out)
    (hcap : formEnd bytes out ≤ GET_CONFIG_BUF_SIZE)
    (hcut : GET_CONFIG_BUF_SIZE ≤ formEnd bytes out + closingSuffix.length) :
    ∀ j, j < GET_CONFIG_BUF_SIZE → suffixImage m0 bytes out j ≠ 0 := by
  intro j hj
  have hl := pageText_length bytes out
  rw [closingSuffix_length] at hcut
  rw [suffixImage_read m0 bytes out hnul hcap j hj, List.getD_eq_getElem _ _ (by omega)]
  exact pageText_nonzero bytes out _ (List.getElem_mem _)

theorem strlenFrom_none (m : Mem) (h : ∀ j, m j ≠ 0) (fuel : Nat) :
    ∀ i, strlenFrom m fuel i = none := by
  induction fuel with
  | zero => intro i; rfl
  | succ f ih =>
    intro i
    unfold strlenFrom
    rw [if_neg (h i)]
    exact ih (i + 1)

theorem strncpy_zero (m : Mem) (dst : Nat) (src : List Nat) : strncpy m dst src 0 = m := by
  funext j
  have : ¬ (dst ≤ j ∧ j < dst + 0) := by omega
  simp only [strncpy, if_neg this]

theorem templateFS_exists (bytes : List Nat) :
    (templateFS bytes).fileExists AP_JS_NAME = true := by
  simp [templateFS]

theorem templateFS_open (bytes : List Nat) :
    (templateFS bytes).openFile AP_JS_NAME = some bytes := by
  simp [templateFS]

theorem storeBlock_nil (m : Mem) (off : Nat) : storeBlock m off [] = m := by
  funext j
  have : ¬ (off ≤ j ∧ j < off + 0) := by omega
  simp [storeBlock, this]

theorem replicate_nonzero (n : Nat) : ∀ b ∈ List.replicate n 65, b ≠ 0 := by
  intro b hb
  rw [List.eq_of_mem_replicate hb]
  decide

/-- A template that fills the whole buffer: the terminator of the template step is
stored one byte past the end. -/
theorem assemblePage_full_template (bytes : List Nat) (m0 : Mem) (hnz : ∀ b ∈ bytes, b ≠ 0)
    (hlen : bytes.length = 6044) :
    ∃ a, assemblePage (templateFS bytes) (truncatingRenderer []) m0 = some a ∧
      Event.write 6044 1 ∈ a.events := by
  have hpre := loadTemplate_present (templateFS bytes) m0 bytes (templateFS_exists _)
    (templateFS_open _)
  have hs1 := strlen_templateImage m0 bytes (by rw [hlen]; decide)
  rw [cchars_of_nonzero _ hnz, hlen] at hs1
  have hr : remainingCapacity 6044 = 0 := by decide
  have hout : truncatingRenderer [] 0 = [] := rfl
  have h : assemblePage (templateFS bytes) (truncatingRenderer []) m0 = some
      { ret := (loadTemplate (templateFS bytes) m0).ret
        afterTemplate := templateImage m0 bytes
        afterRender := templateImage m0 bytes
        afterSuffix := templateImage m0 bytes
        reported := 6044
        final := (templateImage m0 bytes).store (GET_CONFIG_BUF_SIZE - 1) 0
        events := (loadTemplate (templateFS bytes) m0).events ++
          [Event.createHTMLfromEEPROM 6044 0, Event.write 6044 0] ++ [Event.write 6044 0] ++
          [Event.write (GET_CONFIG_BUF_SIZE - 1) 1] } := by
    simp only [assemblePage, hpre.1, hs1, hr, hout, storeBlock_nil, suffixCopyLength_eq,
      strncpy_zero, List.length_nil]
  refine ⟨_, h, ?_⟩
  have hw := hpre.2.1
  rw [hlen] at hw
  simp only [List.mem_append]
  exact Or.inl (Or.inl (Or.inl hw))

/-- Facts about a template that leaves four bytes free, followed by an empty form. -/
theorem cut_suffix_facts (bytes : List Nat) (hnz : ∀ b ∈ bytes, b ≠ 0)
    (hlen : bytes.length = 6040) :
    (cchars bytes).length = 6040 ∧ renderedBytes (truncatingRenderer []) bytes = [0] ∧
      formEnd bytes [0] = 6040 := by
  have hcp : (cchars bytes).length = 6040 := by
    rw [cchars_of_nonzero _ hnz, hlen]
  refine ⟨hcp, ?_, ?_⟩
  · simp only [renderedBytes, hcp]; decide
  · simp only [formEnd, hcp]; decide

/-- A template that leaves four bytes free, and an empty form: after the `strncpy`
the buffer holds no null byte, and the `strlen` made for `DEBUG_INFO` runs on to the
first null byte of the memory after the buffer. -/
theorem assemblePage_cut_suffix (bytes : List Nat) (m0 : Mem) (hnz : ∀ b ∈ bytes, b ≠ 0)
    (hlen : bytes.length = 6040) (hz : m0 6044 = 0) :
    ∃ a, assemblePage (templateFS bytes) (truncatingRenderer []) m0 = some a ∧
      ¬ terminatedWithin a.afterSuffix ∧ a.reported = 6044 := by
  have hcapv : GET_CONFIG_BUF_SIZE = 6044 := rfl
  obtain ⟨hcp, hout, hfe⟩ := cut_suffix_facts bytes hnz hlen
  have hnzw := suffixImage_nonzero_within m0 bytes [0] (by decide) (by rw [hfe]; decide)
    (by rw [hfe]; decide)
  have hrep : strlen (suffixImage m0 bytes [0]) = some 6044 := by
    apply strlen_first
    · decide
    · rw [suffixImage_beyond m0 bytes [0] 6044 (by decide) (by rw [hlen]; decide)
        (by rw [hcp]; decide) (by rw [hfe]; decide)]
      exact hz
    · intro j hj
      exact hnzw j (by omega)
  have h := assemblePage_closed (templateFS bytes) (truncatingRenderer []) m0 bytes 6044
    (templateFS_exists _) (templateFS_open _) (by rw [hlen]; decide) (by rw [hout]; decide)
    (by rw [hout, hcp]; decide) (by rw [hout, hfe]; decide) (by rw [hout]; exact hrep)
  refine ⟨_, h, ?_, rfl⟩
  rw [hout]
  rintro ⟨i, hi, hzero⟩
  exact hnzw i hi hzero

/-- A template that leaves four bytes free, and an empty form, in a memory without
any null byte: the `strlen` made for `DEBUG_INFO` finds no terminator. -/
theorem assemblePage_cut_suffix_faults (bytes : List Nat) (m0 : Mem)
    (hnz : ∀ b ∈ bytes, b ≠ 0) (hlen : bytes.length = 6040) (hm : ∀ j, m0 j ≠ 0) :
    assemblePage (templateFS bytes) (truncatingRenderer []) m0 = none := by
  have hcapv : GET_CONFIG_BUF_SIZE = 6044 := rfl
  obtain ⟨hcp, hout, hfe⟩ := cut_suffix_facts bytes hnz hlen
  have hnzw := suffixImage_nonzero_within m0 bytes [0] (by decide) (by rw [hfe]; decide)
    (by rw [hfe]; decide)
  have hall : ∀ j, suffixImage m0 bytes [0] j ≠ 0 := by
    intro j
    by_cases hj : j < GET_CONFIG_BUF_SIZE
    · exact hnzw j hj
    · rw [suffixImage_beyond m0 bytes [0] j (by omega) (by rw [hlen]; decide)
        (by rw [hcp]; decide) (by rw [hfe]; decide)]
      exact hm j
  have hrep : strlen (suffixImage m0 bytes [0]) = none := strlenFrom_none _ hall _ _
  exact assemblePage_unterminated (templateFS bytes) (truncatingRenderer []) m0 bytes
    (templateFS_exists _) (templateFS_open _) (by rw [hlen]; decide) (by rw [hout]; decide)
    (by rw [hout, hcp]; decide) (by rw [hout, hfe]; decide) (by rw [hout]; exact hrep)

/-! ## C1: bounds of the render buffer -/

/-- C1 fails on the code. With a template of exactly GET_CONFIG_BUF_SIZE = 6044 bytes
the unbounded copy loop fills the buffer and the template step stores its terminator
at offset 6044, outside the buffer. With a template of 6040 bytes and an empty
rendered form the `strncpy` fills offsets 6040..6043 with the first four suffix bytes:
the buffer then holds no null byte, and the `strlen` evaluated for `DEBUG_INFO` before
the final terminator store runs past the buffer, to offset 6044. -/
theorem assemblePage_template_overflow :
    (∃ a, assemblePage (templateFS (List.replicate 6044 65)) (truncatingRenderer []) (fun _ => 0)
        = some a ∧ Event.write 6044 1 ∈ a.events ∧ (Event.write 6044 1).overflows = true) ∧
    (∃ a, assemblePage (templateFS (List.replicate 6040 65)) (truncatingRenderer []) (fun _ => 0)
        = some a ∧ ¬ terminatedWithin a.afterSuffix ∧ a.reported = 6044) := by
  constructor
  · obtain ⟨a, h1, h2⟩ := assemblePage_full_template (List.replicate 6044 65) (fun _ => 0)
      (replicate_nonzero 6044) (List.length_replicate 6044 65)
    exact ⟨a, h1, h2, by decide⟩
  · exact assemblePage_cut_suffix (List.replicate 6040 65) (fun _ => 0)
      (replicate_nonzero 6040) (List.length_replicate 6040 65) rfl

/-! ## C2: the assembled string -/

/-- C2, as stated, fails on the code in two ways. For a template that contains a null
byte, `A\0B`, the bytes of the template after the null are not part of the assembled
string. When the suffix is cut (template of 6040 bytes, empty form) the buffer is
unterminated at the `strlen` evaluated for `DEBUG_INFO`; in a memory without a null
byte that call finds no terminator and the assembly does not complete. -/
theorem assemblePage_concat_counterexample :
    (∃ a, assemblePage (templateFS [65, 0, 66]) (truncatingRenderer [70]) (fun _ => 0) = some a ∧
      cstr a.final = some ([65, 70] ++ closingSuffix) ∧
      cstr a.final ≠ some (([65, 0, 66] ++ [70] ++ closingSuffix).take
        (min (GET_CONFIG_BUF_SIZE - 1) (3 + 1 + closingSuffix.length)))) ∧
    assemblePage (templateFS (List.replicate 6040 65)) (truncatingRenderer []) (fun _ => 1)
      = none := by
  constructor
  · have hout : renderedBytes (truncatingRenderer [70]) [65, 0, 66] = [70, 0] := by decide
    have hrep := strlen_suffixImage_fit (fun _ => 0) [65, 0, 66] [70, 0] (by decide) (by decide)
    have h := assemblePage_closed (templateFS [65, 0, 66]) (truncatingRenderer [70])
      (fun _ => 0) [65, 0, 66] _ (templateFS_exists _) (templateFS_open _) (by decide)
      (by decide) (by decide) (by decide) (by rw [hout]; exact hrep)
    have hc := cstr_finalImage (fun _ => 0) [65, 0, 66] [70, 0] (by decide) (by decide)
    have hp : (pageText [65, 0, 66] [70, 0]).take (GET_CONFIG_BUF_SIZE - 1)
        = [65, 70] ++ closingSuffix := by decide
    refine ⟨_, h, ?_, ?_⟩
    · rw [hout, hc, hp]
    · rw [hout, hc, hp]; decide
  · exact assemblePage_cut_suffix_faults (List.replicate 6040 65) (fun _ => 1)
      (replicate_nonzero 6040) (List.length_replicate 6040 65) (fun _ => Nat.one_ne_zero)

/-- C2, amended: for every template that is present, can be opened, is at most
GET_CONFIG_BUF_SIZE - 1 bytes long and contains no null byte, and every rendering that
the renderer leaves null-terminated inside the remaining capacity it was passed, such
that T + S + suffix length is at most capacity - 1, the page assembly returns and the
string left in the buffer is the template followed by the form followed by the whole
closing suffix, which is also the first min(capacity - 1, T + S + suffix length) bytes
of that concatenation. -/
theorem assemblePage_concat (fs : FileSystem) (render : Nat → List Nat) (m0 : Mem)
    (bytes : List Nat) (hex : fs.fileExists AP_JS_NAME = true)
    (hop : fs.openFile AP_JS_NAME = some bytes)
    (hT : bytes.length ≤ GET_CONFIG_BUF_SIZE - 1) (hnz : ∀ b ∈ bytes, b ≠ 0)
    (hlen : (render (GET_CONFIG_BUF_SIZE - bytes.length)).length
      ≤ GET_CONFIG_BUF_SIZE - bytes.length)
    (hnul : 0 ∈ render (GET_CONFIG_BUF_SIZE - bytes.length))
    (hfits : bytes.length + (cchars (render (GET_CONFIG_BUF_SIZE - bytes.length))).length
      + closingSuffix.length ≤ GET_CONFIG_BUF_SIZE - 1) :
    ∃ a, assemblePage fs render m0 = some a ∧
      cstr a.final = some
        (bytes ++ cchars (render (GET_CONFIG_BUF_SIZE - bytes.length)) ++ closingSuffix) ∧
      cstr a.final = some
        ((bytes ++ cchars (render (GET_CONFIG_BUF_SIZE - bytes.length)) ++ closingSuffix).take
          (min (GET_CONFIG_BUF_SIZE - 1)
            (bytes.length + (cchars (render (GET_CONFIG_BUF_SIZE - bytes.length))).length
              + closingSuffix.length))) := by
  have hcapv : GET_CONFIG_BUF_SIZE = 6044 := rfl
  have hTlt : bytes.length < SIZE_RANGE := by unfold SIZE_RANGE; omega
  have hcp : cchars bytes = bytes := cchars_of_nonzero bytes hnz
  have hrb : renderedBytes render bytes = render (GET_CONFIG_BUF_SIZE - bytes.length) := by
    simp only [renderedBytes, hcp]
  have hfe : formEnd bytes (renderedBytes render bytes)
      = bytes.length + (cchars (render (GET_CONFIG_BUF_SIZE - bytes.length))).length := by
    rw [hrb]; unfold formEnd; rw [hcp]
  have hcap : formEnd bytes (renderedBytes render bytes) ≤ GET_CONFIG_BUF_SIZE := by
    rw [hfe]; omega
  have hnul2 : 0 ∈ renderedBytes render bytes := by rw [hrb]; exact hnul
  have hrep := strlen_suffixImage_fit m0 bytes (renderedBytes render bytes) hnul2
    (by rw [hfe]; omega)
  have h := assemblePage_closed fs render m0 bytes _ hex hop hTlt hnul2
    (by rw [hrb, hcp]; unfold SIZE_RANGE; omega) hcap hrep
  have hc := cstr_finalImage m0 bytes (renderedBytes render bytes) hnul2 hcap
  have hpt : pageText bytes (renderedBytes render bytes)
      = bytes ++ cchars (render (GET_CONFIG_BUF_SIZE - bytes.length)) ++ closingSuffix := by
    simp only [pageText, hrb, hcp]
  rw [hpt] at hc
  refine ⟨_, h, ?_, ?_⟩
  · rw [hc]
    congr 1
    apply List.take_of_length_le
    simp only [List.length_append]
    omega
  · rw [hc]
    congr 1
    rw [List.take_eq_take]
    simp only [List.length_append]
    omega

theorem assemblePage_concat_witness :
    ∃ a, assemblePage (templateFS [65, 66]) (truncatingRenderer [70]) (fun _ => 0) = some a ∧
      cstr a.final = some
        ([65, 66] ++ cchars (truncatingRenderer [70] (GET_CONFIG_BUF_SIZE - [65, 66].length))
          ++ closingSuffix) ∧
      cstr a.final = some
        (([65, 66] ++ cchars (truncatingRenderer [70] (GET_CONFIG_BUF_SIZE - [65, 66].length))
            ++ closingSuffix).take
          (min (GET_CONFIG_BUF_SIZE - 1)
            ([65, 66].length
              + (cchars (truncatingRenderer [70] (GET_CONFIG_BUF_SIZE - [65, 66].length))).length
              + closingSuffix.length))) :=
  assemblePage_concat (templateFS [65, 66]) (truncatingRenderer [70]) (fun _ => 0) [65, 66]
    (by decide) (by decide) (by decide) (by decide) (by decide) (by decide) (by decide)

/-! ## C10: the byte count of the suffix copy -/

/-- C10 fails on the code at L = 6045: the difference is unsigned, the test `< 0`
never holds, and the count handed to `strncpy` is 2^32 - 1 where the claim says
max(0, 6044 - 6045) = 0. -/
theorem suffixCopyLength_wraps :
    suffixCopyLength 6045 = 4294967295 ∧
    max 0 ((GET_CONFIG_BUF_SIZE : Int) - 6045) = 0 ∧
    suffixCopyLength 6045 ≠ (max 0 ((GET_CONFIG_BUF_SIZE : Int) - 6045)).toNat := by
  decide

/-! ## Handlers and the polling loop -/

theorem handleSubmit_frame (dj : String → Option JsonDocument) (req : Request) (st : Session) :
    (handleSubmit dj req st).session.getConfigContent = st.getConfigContent ∧
    (st.config_done = true → (handleSubmit dj req st).session.config_done = true) ∧
    ∀ e ∈ (handleSubmit dj req st).events, e.duringLoop = true := by
  unfold handleSubmit
  split
  · split
    · simp
    · split
      · simp
      · split
        · simp
        · split
          · simp [Event.duringLoop]
          · split
            · simp [Event.duringLoop]
            · simp [Event.duringLoop]
  · simp

theorem handleClient_frame (dj : String → Option JsonDocument) (pending : Option Request)
    (st : Session) :
    (handleClient dj pending st).session.getConfigContent = st.getConfigContent ∧
    (st.config_done = true → (handleClient dj pending st).session.config_done = true) ∧
    ∀ e ∈ (handleClient dj pending st).events, e.duringLoop = true := by
  unfold handleClient
  split
  · simp
  · split
    · simp [handleRoot, Event.duringLoop]
    · exact handleSubmit_frame dj _ st
    · simp [handleNotFound, Event.duringLoop]

theorem pollLoop_frame (dj : String → Option JsonDocument) (inputs : List Iteration) :
    ∀ st : Session,
      (pollLoop dj st inputs).session.getConfigContent = st.getConfigContent ∧
      (∀ e ∈ (pollLoop dj st inputs).events, e.duringLoop = true) ∧
      ((pollLoop dj st inputs).status = Status.exited ∨
        (pollLoop dj st inputs).status = Status.polling ∨
        (pollLoop dj st inputs).status = Status.faulted) := by
  induction inputs with
  | nil => intro st; simp [pollLoop]
  | cons it rest ih =>
    intro st
    obtain ⟨hc1, _, hc3⟩ := handleClient_frame dj it.request st
    obtain ⟨h1, h2, h3⟩ := ih (handleClient dj it.request st).session
    unfold pollLoop
    by_cases hg : it.serialAvailable = 0 ∧ st.config_done = false
    · rw [if_pos hg]
      by_cases hf : (handleClient dj it.request st).faulted = true
      · simp only [hf, if_true]
        refine ⟨hc1, ?_, by trivial⟩
        intro e he
        rcases List.mem_cons.mp he with he | he
        · subst he; rfl
        · exact hc3 e he
      · simp only [hf, Bool.false_eq_true, if_false]
        refine ⟨h1.trans hc1, ?_, h3⟩
        intro e he
        rcases List.mem_cons.mp he with he | he
        · subst he; rfl
        · rcases List.mem_append.mp he with he | he
          · exact hc3 e he
          · exact h2 e he
    · rw [if_neg hg]
      simp

theorem loadTemplate_events (fs : FileSystem) (m : Mem) :
    ∀ e ∈ (loadTemplate fs m).events, e.duringAssembly = true := by
  by_cases hex : fs.fileExists AP_JS_NAME = true
  · cases hop : fs.openFile AP_JS_NAME with
    | none =>
      rw [(loadTemplate_absent fs m (Or.inr hop)).2.1]
      intro e he; simp at he
    | some bytes =>
      intro e he
      obtain ⟨q, hq, _⟩ := (loadTemplate_present fs m bytes hex hop).2.2 e he
      subst hq; rfl
  · rw [(loadTemplate_absent fs m (Or.inl (by simpa using hex))).2.1]
    intro e he; simp at he

theorem assemblePage_events (fs : FileSystem) (render : Nat → List Nat) (m0 : Mem)
    (a : Assembly) (h : assemblePage fs render m0 = some a) :
    (∀ e ∈ a.events, e.duringAssembly = true) ∧
    ∃ len1, strlen (loadTemplate fs m0).mem = some len1 ∧
      Event.createHTMLfromEEPROM len1 (remainingCapacity len1) ∈ a.events := by
  unfold assemblePage at h
  cases h1 : strlen (loadTemplate fs m0).mem with
  | none => simp [h1] at h
  | some len1 =>
    cases h2 : strlen (storeBlock (loadTemplate fs m0).mem len1 (render (remainingCapacity len1))) with
    | none => simp [h1, h2] at h
    | some len2 =>
      cases h3 : strlen (strncpy (storeBlock (loadTemplate fs m0).mem len1
          (render (remainingCapacity len1))) len2 closingSuffix (suffixCopyLength len2)) with
      | none => simp [h1, h2, h3] at h
      | some used =>
        simp only [h1, h2, h3, Option.some.injEq] at h
        subst h
        refine ⟨?_, len1, rfl, by simp⟩
        intro e he
        simp only [List.mem_append, List.mem_cons, List.mem_singleton, List.not_mem_nil,
          or_false] at he
        rcases he with ((he | he | he) | he) | he
        · exact loadTemplate_events fs m0 e he
        · subst he; rfl
        · subst he; rfl
        · subst he; rfl
        · subst he; rfl

theorem pollLoop_step (dj : String → Option JsonDocument) (st : Session) (it : Iteration)
    (rest : List Iteration) (hg : it.serialAvailable = 0 ∧ st.config_done = false)
    (hf : (handleClient dj it.request st).faulted = false) :
    pollLoop dj st (it :: rest) =
      ⟨(pollLoop dj (handleClient dj it.request st).session rest).status,
        (pollLoop dj (handleClient dj it.request st).session rest).session,
        Event.processNextRequest :: (handleClient dj it.request st).events ++
          (pollLoop dj (handleClient dj it.request st).session rest).events⟩ := by
  rw [pollLoop]
  simp only [if_pos hg, hf, Bool.false_eq_true, if_false]

theorem pollLoop_append (dj : String → Option JsonDocument) (pre rest : List Iteration) :
    ∀ st : Session, (pollLoop dj st pre).status = Status.polling →
      pollLoop dj st (pre ++ rest) =
        ⟨(pollLoop dj (pollLoop dj st pre).session rest).status,
          (pollLoop dj (pollLoop dj st pre).session rest).session,
          (pollLoop dj st pre).events ++ (pollLoop dj (pollLoop dj st pre).session rest).events⟩ := by
  induction pre with
  | nil => intro st _; simp [pollLoop]
  | cons it pre ih =>
    intro st hst
    rw [List.cons_append]
    by_cases hg : it.serialAvailable = 0 ∧ st.config_done = false
    · by_cases hf : (handleClient dj it.request st).faulted = true
      · rw [pollLoop] at hst
        simp [hg, hf] at hst
      · have hf2 : (handleClient dj it.request st).faulted = false := by simpa using hf
        rw [pollLoop_step dj st it pre hg hf2] at hst ⊢
        rw [pollLoop_step dj st it (pre ++ rest) hg hf2, ih _ hst]
        simp only [List.cons_append, List.append_assoc]
    · rw [pollLoop] at hst
      simp [hg] at hst

/-! ## C3 and C4: the submit handler on an action that is not a string -/

/-- C3 fails on the code for the body `{"action":5}`: the action is not null and is
not "save", so the claim has the session move to DONE; the code hands the null
pointer to `strcmp` before it reaches `config_done = true`, the flag stays false and
the loop ends in a fault, not through its guard. -/
theorem handleSubmit_number_action_not_done :
    (sampleDeserializeJson "\x7b\"action\":5\x7d").map (fun d => (d.member "action").isNull)
      = some false ∧
    (handleSubmit sampleDeserializeJson (postConfig "\x7b\"action\":5\x7d")
      ⟨false, none⟩).faulted = true ∧
    (handleSubmit sampleDeserializeJson (postConfig "\x7b\"action\":5\x7d")
      ⟨false, none⟩).session.config_done = false ∧
    (pollLoop sampleDeserializeJson ⟨false, none⟩
      [⟨0, some (postConfig "\x7b\"action\":5\x7d")⟩, ⟨0, none⟩]).status = Status.faulted := by
  decide

/-- C4 fails on the code for the body `{"action":5}`: the claim has one response with
status 404; the code hands the null pointer to `strcmp` and sends no response. -/
theorem handleSubmit_number_action_no_response :
    (handleSubmit sampleDeserializeJson (postConfig "\x7b\"action\":5\x7d")
      ⟨false, none⟩).events = [] ∧
    (handleSubmit sampleDeserializeJson (postConfig "\x7b\"action\":5\x7d")
      ⟨false, none⟩).faulted = true ∧
    (handleSubmit sampleDeserializeJson (postConfig "\x7b\"action\":\"launch\"\x7d")
      ⟨false, none⟩).events
      = [Event.send 404 "text/html" (Content.literal "Invalid value for \"action\"")] := by
  decide

/-! ## C5: when the settings store is written -/

/-- C5, as stated, fails on the code for an action that is not "save" but starts
with "save" followed by a NUL character: `strcmp` stops at the NUL, finds the action
equal to "save", and `handleSubmit` calls `saveJsonToEEPROM`. -/
theorem handleSubmit_save_counterexample :
    JsonVariant.string "save\x00x" ≠ JsonVariant.string "save" ∧
    (handleSubmit (fun _ => some [("action", JsonVariant.string "save\x00x")])
        (postConfig "\x7b\"action\":\"save\\u0000x\"\x7d") ⟨false, none⟩).events =
      [Event.saveJsonToEEPROM [("action", JsonVariant.string "save\x00x")],
        Event.send 200 "text/html" (Content.literal "Successfully saved")] := by
  decide

/-- C5, amended: `handleSubmit` calls `saveJsonToEEPROM` exactly once, with the
parsed document, when the request is a POST whose body parses and whose action is a
string that `strcmp` finds equal to "save" (its characters before the first NUL are
s, a, v, e), and not at all in every other case; `handleRoot` and `handleNotFound`
never call it. -/
theorem handleSubmit_saves_on_strcmp_save (dj : String → Option JsonDocument) (req : Request)
    (st : Session) :
    (handleSubmit dj req st).events.filter Event.isSave =
      (match dj req.plain with
        | some doc =>
          match doc.member "action" with
          | JsonVariant.string s =>
            if req.method = HTTPMethod.HTTP_POST ∧ cstringOf s = "save".toList
            then [Event.saveJsonToEEPROM doc] else []
          | _ => []
        | none => []) ∧
    (handleRoot st).events.filter Event.isSave = [] ∧
    (handleNotFound st).events.filter Event.isSave = [] := by
  refine ⟨?_, by simp [handleRoot, Event.isSave], by simp [handleNotFound, Event.isSave]⟩
  have hsave : cstringOf "save" = "save".toList := by decide
  unfold handleSubmit
  by_cases hm : req.method = HTTPMethod.HTTP_POST
  · cases hd : dj req.plain with
    | none => simp [hm]
    | some doc =>
      cases ha : doc.member "action" with
      | null => simp [hm, ha, JsonVariant.isNull]
      | boolean b => simp [hm, ha, JsonVariant.isNull, JsonVariant.asCString]
      | number n => simp [hm, ha, JsonVariant.isNull, JsonVariant.asCString]
      | array r => simp [hm, ha, JsonVariant.isNull, JsonVariant.asCString]
      | object r => simp [hm, ha, JsonVariant.isNull, JsonVariant.asCString]
      | string a =>
        by_cases h1 : cstringOf a = "save".toList
        · have h1b : strcmpIsZero a "save" = true := by
            simp only [strcmpIsZero, hsave, h1, decide_True]
          simp only [hm, ha, JsonVariant.isNull, JsonVariant.asCString, h1b, h1, if_true,
            Bool.false_eq_true, if_false, and_self, List.filter, Event.isSave]
        · have h1b : strcmpIsZero a "save" = false := by
            simp only [strcmpIsZero, hsave, h1, decide_False]
          by_cases h2 : strcmpIsZero a "cancel" = true
          · simp only [hm, ha, JsonVariant.isNull, JsonVariant.asCString, h1b, h1, h2, if_true,
              Bool.false_eq_true, if_false, and_false, List.filter, Event.isSave]
          · simp only [hm, ha, JsonVariant.isNull, JsonVariant.asCString, h1b, h1, h2, if_true,
              Bool.false_eq_true, if_false, and_false, List.filter, Event.isSave]
  · cases hd : dj req.plain with
    | none => simp [hm]
    | some doc =>
      cases ha : doc.member "action" <;> simp [hm, ha]

/-! ## C6: every unmatched request is redirected -/

/-- C6: a request whose path is not "/" and that is not a POST to "/api/config" is
dispatched to `handleNotFound`, which answers with the header Location set to
"http://" followed by the address AP_LOCAL_IP and "/", then status 302, whatever the
path, and leaves `config_done` and the render buffer as they were. -/
theorem unmatched_request_redirects (dj : String → Option JsonDocument) (st : Session)
    (req : Request) (hroot : req.uri ≠ "/")
    (hsubmit : ¬ (req.uri = "/api/config" ∧ req.method = HTTPMethod.HTTP_POST)) :
    route req = Route.notFound ∧
    handleClient dj (some req) st = handleNotFound st ∧
    (handleNotFound st).events =
      [Event.sendHeader "Location" ("http://" ++ ipToString AP_LOCAL_IP ++ "/"),
        Event.send 302 "text/plain" (Content.literal "")] ∧
    (handleNotFound st).session = st ∧ (handleNotFound st).faulted = false := by
  have hr : route req = Route.notFound := by
    unfold route
    rw [if_neg hroot, if_neg hsubmit]
  have hloc : "http://" ++ ipToString AP_LOCAL_IP ++ "/" = "http://192.168.4.1/" := by decide
  refine ⟨hr, ?_, ?_, rfl, rfl⟩
  · simp only [handleClient, hr]
  · rw [hloc]; rfl

theorem unmatched_request_redirects_witness :
    route (getPath "/../x") = Route.notFound ∧
    handleClient sampleDeserializeJson (some (getPath "/../x")) ⟨false, none⟩
      = handleNotFound ⟨false, none⟩ ∧
    (handleNotFound ⟨false, none⟩).events =
      [Event.sendHeader "Location" ("http://" ++ ipToString AP_LOCAL_IP ++ "/"),
        Event.send 302 "text/plain" (Content.literal "")] ∧
    (handleNotFound ⟨false, none⟩).session = ⟨false, none⟩ ∧
    (handleNotFound ⟨false, none⟩).faulted = false :=
  unmatched_request_redirects sampleDeserializeJson ⟨false, none⟩ (getPath "/../x")
    (by decide) (by decide)

/-! ## C7: the page is rendered once -/

/-- C7: whatever requests `pre` the loop has served from a session `st` while it kept
polling, a root request served next is answered with status 200, content type
text/html and the string that `getConfigContent` held in `st`; the loop never stores
into the render buffer, and the pointer and the memory behind it are unchanged
at the end. -/
theorem root_response_fixed (dj : String → Option JsonDocument) (st : Session)
    (pre post : List Iteration) (it : Iteration) (req : Request)
    (hit : it.request = some req) (hreq : req.uri = "/")
    (hpre : (pollLoop dj st pre).status = Status.polling)
    (hguard : it.serialAvailable = 0 ∧ (pollLoop dj st pre).session.config_done = false) :
    (pollLoop dj st (pre ++ it :: post)).events =
      (pollLoop dj st pre).events ++
        Event.processNextRequest ::
          Event.send 200 "text/html" (bufferContent st.getConfigContent) ::
            (pollLoop dj (pollLoop dj st pre).session post).events ∧
    (pollLoop dj st (pre ++ it :: post)).session.getConfigContent = st.getConfigContent ∧
    ∀ e ∈ (pollLoop dj st (pre ++ it :: post)).events, ∀ start len, e ≠ Event.write start len := by
  have hfr := pollLoop_frame dj pre st
  have hroute : route req = Route.root := by unfold route; rw [if_pos hreq]
  have hc : handleClient dj it.request (pollLoop dj st pre).session =
      handleRoot (pollLoop dj st pre).session := by
    simp only [handleClient, hit, hroute]
  refine ⟨?_, (pollLoop_frame dj _ st).1, ?_⟩
  · rw [pollLoop_append dj pre (it :: post) st hpre]
    simp only
    congr 1
    conv_lhs => unfold pollLoop
    simp only [if_pos hguard, hc, handleRoot, Bool.false_eq_true, if_false, hfr.1,
      List.cons_append, List.nil_append]
  · intro e he start len heq
    have := (pollLoop_frame dj _ st).2.1 e he
    rw [heq] at this
    simp [Event.duringLoop] at this

theorem root_response_fixed_witness :
    (pollLoop sampleDeserializeJson ⟨false, some (fun _ => 0)⟩
        ([⟨0, some (postConfig "\x7b\"action\":\"save\",\"ssid\":\"home\"\x7d")⟩]
          ++ ⟨0, some (getPath "/")⟩ :: [])).events =
      (pollLoop sampleDeserializeJson ⟨false, some (fun _ => 0)⟩
          [⟨0, some (postConfig "\x7b\"action\":\"save\",\"ssid\":\"home\"\x7d")⟩]).events ++
        Event.processNextRequest ::
          Event.send 200 "text/html"
              (bufferContent (Session.mk false (some (fun _ => 0))).getConfigContent) ::
            (pollLoop sampleDeserializeJson
              (pollLoop sampleDeserializeJson ⟨false, some (fun _ => 0)⟩
                [⟨0, some (postConfig "\x7b\"action\":\"save\",\"ssid\":\"home\"\x7d")⟩]).session
              []).events ∧
    (pollLoop sampleDeserializeJson ⟨false, some (fun _ => 0)⟩
        ([⟨0, some (postConfig "\x7b\"action\":\"save\",\"ssid\":\"home\"\x7d")⟩]
          ++ ⟨0, some (getPath "/")⟩ :: [])).session.getConfigContent
      = (Session.mk false (some (fun _ => 0))).getConfigContent ∧
    ∀ e ∈ (pollLoop sampleDeserializeJson ⟨false, some (fun _ => 0)⟩
        ([⟨0, some (postConfig "\x7b\"action\":\"save\",\"ssid\":\"home\"\x7d")⟩]
          ++ ⟨0, some (getPath "/")⟩ :: [])).events,
      ∀ start len, e ≠ Event.write start len :=
  root_response_fixed sampleDeserializeJson ⟨false, some (fun _ => 0)⟩
    [⟨0, some (postConfig "\x7b\"action\":\"save\",\"ssid\":\"home\"\x7d")⟩] []
    ⟨0, some (getPath "/")⟩ (getPath "/") rfl rfl (by decide) (by decide)

/-! ## C8: teardown -/

theorem count_of_duringAssembly (evs : List Event) (h : ∀ e ∈ evs, e.duringAssembly = true) :
    evs.count Event.restart = 0 ∧ evs.count Event.free = 0 := by
  constructor
  · rw [List.count_eq_zero]
    intro hmem
    have := h _ hmem
    simp [Event.duringAssembly] at this
  · rw [List.count_eq_zero]
    intro hmem
    have := h _ hmem
    simp [Event.duringAssembly] at this

theorem count_of_duringLoop (evs : List Event) (h : ∀ e ∈ evs, e.duringLoop = true) :
    evs.count Event.restart = 0 ∧ evs.count Event.free = 0 := by
  constructor
  · rw [List.count_eq_zero]
    intro hmem
    have := h _ hmem
    simp [Event.duringLoop] at this
  · rw [List.count_eq_zero]
    intro hmem
    have := h _ hmem
    simp [Event.duringLoop] at this

theorem runSession_exited (w : World) (inputs : List Iteration) (m0 : Mem) (a : Assembly)
    (ha : assemblePage w.fs w.createHTMLfromEEPROM m0 = some a)
    (hs : (pollLoop w.deserializeJson ⟨false, some a.final⟩ inputs).status = Status.exited) :
    runSession w inputs (some m0) [] =
      ⟨Status.restarted,
        [Event.softAPConfig, Event.softAP, Event.dnsStart, Event.serverBegin] ++ a.events ++
          (pollLoop w.deserializeJson ⟨false, some a.final⟩ inputs).events ++
          [Event.serverStop, Event.dnsStop, Event.softAPdisconnect, Event.free] ++
          [Event.restart]⟩ := by
  have hp := (pollLoop_frame w.deserializeJson inputs ⟨false, some a.final⟩).1
  simp only [runSession, ha, hs, ESP_restart, hp, Option.isSome_some, if_true, List.nil_append,
    List.cons_append]

theorem runSession_not_exited (w : World) (inputs : List Iteration) (m0 : Mem) (a : Assembly)
    (ha : assemblePage w.fs w.createHTMLfromEEPROM m0 = some a)
    (hs : (pollLoop w.deserializeJson ⟨false, some a.final⟩ inputs).status ≠ Status.exited) :
    (runSession w inputs (some m0) []).status =
      (pollLoop w.deserializeJson ⟨false, some a.final⟩ inputs).status := by
  simp only [runSession, ha]

/-- C8: `configSoftAP` never returns to its caller. When the allocation fails the run
ends at `ESP.restart()`, called once, with no access to the render buffer and no
`free`. When the buffer was allocated and the polling loop ends through its guard
(done flag or serial input), the run ends at `ESP.restart()`; in every run that ends
at the restart, `ESP.restart()` is called exactly once, as the last action, and
`free(getConfigContent)` exactly once if the buffer was allocated. -/
theorem configSoftAP_teardown (w : World) (inputs : List Iteration) :
    (configSoftAP w inputs).status ≠ Status.returned ∧
    (w.malloc = none →
      (configSoftAP w inputs).status = Status.restarted ∧
      (configSoftAP w inputs).trace.count Event.restart = 1 ∧
      ∀ e ∈ (configSoftAP w inputs).trace, e.usesBuffer = false) ∧
    (∀ m0 a, w.malloc = some m0 → assemblePage w.fs w.createHTMLfromEEPROM m0 = some a →
      (pollLoop w.deserializeJson ⟨false, some a.final⟩ inputs).status = Status.exited →
      (configSoftAP w inputs).status = Status.restarted) ∧
    ((configSoftAP w inputs).status = Status.restarted →
      (configSoftAP w inputs).trace.count Event.restart = 1 ∧
      (configSoftAP w inputs).trace.getLast? = some Event.restart ∧
      (w.malloc ≠ none → (configSoftAP w inputs).trace.count Event.free = 1)) := by
  cases hm : w.malloc with
  | none =>
    have hc : configSoftAP w inputs = ⟨Status.restarted, [Event.delay 2000, Event.restart]⟩ := by
      simp only [configSoftAP, hm, ESP_restart, List.cons_append, List.nil_append]
    rw [hc]
    refine ⟨by decide, fun _ => ⟨rfl, by decide, by decide⟩, ?_, fun _ => ⟨by decide, by decide, ?_⟩⟩
    · intro m0 a h; simp at h
    · intro h; simp at h
  | some m0 =>
    have hc : configSoftAP w inputs = runSession w inputs (some m0) [] := by
      simp only [configSoftAP, hm]
    rw [hc]
    cases ha : assemblePage w.fs w.createHTMLfromEEPROM m0 with
    | none =>
      have hr : (runSession w inputs (some m0) []).status = Status.faulted := by
        simp only [runSession, ha]
      refine ⟨by rw [hr]; decide, fun h => by simp at h, ?_, fun h => ?_⟩
      · intro m1 a h1 h2
        simp only [Option.some.injEq] at h1
        subst h1
        rw [ha] at h2
        simp at h2
      · rw [hr] at h; simp at h
    | some a =>
      have hfr := pollLoop_frame w.deserializeJson inputs ⟨false, some a.final⟩
      by_cases hs : (pollLoop w.deserializeJson ⟨false, some a.final⟩ inputs).status
          = Status.exited
      · have hr := runSession_exited w inputs m0 a ha hs
        obtain ⟨ca1, ca2⟩ := count_of_duringAssembly a.events (assemblePage_events _ _ _ a ha).1
        obtain ⟨cl1, cl2⟩ := count_of_duringLoop _ hfr.2.1
        rw [hr]
        refine ⟨by simp, fun h => by simp at h, fun _ _ _ _ _ => rfl, fun _ => ⟨?_, ?_, fun _ => ?_⟩⟩
        · simp only [List.count_append, ca1, cl1]
          decide
        · exact List.getLast?_concat _
        · simp only [List.count_append, ca2, cl2]
          decide
      · have hr := runSession_not_exited w inputs m0 a ha hs
        have hne : (runSession w inputs (some m0) []).status ≠ Status.restarted ∧
            (runSession w inputs (some m0) []).status ≠ Status.returned := by
          rw [hr]
          rcases hfr.2.2 with h | h | h
          · exact absurd h hs
          · rw [h]; decide
          · rw [h]; decide
        refine ⟨hne.2, fun h => by simp at h, ?_, fun h => absurd h hne.1⟩
        intro m1 a1 h1 h2 h3
        simp only [Option.some.injEq] at h1
        subst h1
        rw [ha] at h2
        simp only [Option.some.injEq] at h2
        subst h2
        exact absurd h3 hs

theorem configSoftAP_teardown_witness :
    (configSoftAP sampleWorld
      [⟨0, some (postConfig "\x7b\"action\":\"cancel\"\x7d")⟩, ⟨0, none⟩]).status
      = Status.restarted ∧
    (configSoftAP sampleWorld
      [⟨0, some (postConfig "\x7b\"action\":\"cancel\"\x7d")⟩, ⟨0, none⟩]).trace.count
        Event.restart = 1 ∧
    (configSoftAP sampleWorld
      [⟨0, some (postConfig "\x7b\"action\":\"cancel\"\x7d")⟩, ⟨0, none⟩]).trace.getLast?
      = some Event.restart ∧
    (configSoftAP sampleWorld
      [⟨0, some (postConfig "\x7b\"action\":\"cancel\"\x7d")⟩, ⟨0, none⟩]).trace.count
        Event.free = 1 :=
  have h := (configSoftAP_teardown sampleWorld
    [⟨0, some (postConfig "\x7b\"action\":\"cancel\"\x7d")⟩, ⟨0, none⟩]).2.2.2 (by decide)
  ⟨by decide, h.1, h.2.1, h.2.2 (by simp [sampleWorld])⟩

/-! ## C9: a missing template -/

/-- C9 fails on the code: with the template missing from the file system, or present
but impossible to open, `ret = -1` is never read; `createHTMLfromEEPROM` is called on
the buffer as `malloc` left it, the polling loop is entered and a root request is
answered from the buffer. -/
theorem configSoftAP_missing_template :
    (loadTemplate emptyFS (fun _ => 0)).ret = -1 ∧
    (configSoftAP { sampleWorld with fs := emptyFS } [⟨0, some (getPath "/")⟩]).status
      = Status.polling ∧
    Event.createHTMLfromEEPROM 0 6044 ∈
      (configSoftAP { sampleWorld with fs := emptyFS } [⟨0, some (getPath "/")⟩]).trace ∧
    Event.send 200 "text/html" (Content.buffer (some ([70] ++ closingSuffix))) ∈
      (configSoftAP { sampleWorld with fs := emptyFS } [⟨0, some (getPath "/")⟩]).trace ∧
    Event.createHTMLfromEEPROM 0 6044 ∈
      (configSoftAP { sampleWorld with fs := ⟨fun _ => true, fun _ => none⟩ }
        [⟨0, some (getPath "/")⟩]).trace := by
  decide

end ConfigSoftAP
